import Mathlib

/-!
Verification development for the note-taking applications multi-backend
storage reconciliation subsystem.

The definitions below are shallow embeddings of the TypeScript source:

* `mergeData`          — `mergeData` in `client/src/lib/utils/supabase.ts`
                         (lines 74–133); `downloadAndMerge` in the WebDAV
                         module differs only in that its local-item map is
                         built without the positive-id filter, a difference
                         that is unobservable because the map is only ever
                         queried at positive keys.
* `syncMergePhase`     — the per-kind merge phase of `syncWithSupabase` /
                         `syncWithWebDAV` (full sync, all four kinds).
* `putRecord`/`importKind`/`importAllData`
                       — IndexedDB `put` keyed on `id` and `importAllData`
                         in `client/src/lib/utils/storage.ts` (lines 401–458).
* `syncWithWebDAV`     — the observable local-store effect of
                         `syncWithWebDAV`, with an explicit failure point.
* `db_deleteFolder`    — `deleteFolder` in `client/src/lib/db.ts` (262–272).
* `storage_deleteFolder` — `deleteFolder` in `client/src/lib/utils/storage.ts`
                         (188–214).
* `setStorageType`     — `setStorageType` in
                         `client/src/context/storage-context.tsx` (44–65).
* `loadIdCounter`/`getNextId`/`nthIssued`
                       — `loadIdCounters` / `getNextId` in `client/src/lib/db.ts`.
* `addItem`            — `addItem` in `client/src/lib/db.ts` (167–183).
* `addTagToNote`       — `addTagToNote` in `client/src/lib/db.ts` (396–418).

Timestamps are modelled as integers (millisecond epoch values); `Date`
comparison in the source compares those values.
-/

/-- A note record, after `@shared/schema` (`notes` table): only `updatedAt`
matters to the merge, the other fields are carried as data. -/
structure Note where
  id : Int
  title : String
  content : String
  isPinned : Bool
  folderId : Option Int
  userId : Option Int
  createdAt : Int
  updatedAt : Int
deriving DecidableEq, Repr

/-- A folder record, after `@shared/schema` (`folders` table); it has no
`updatedAt` field. -/
structure Folder where
  id : Int
  name : String
  userId : Option Int
deriving DecidableEq, Repr

/-- A tag record, after `@shared/schema` (`tags` table); it has no
`updatedAt` field. -/
structure Tag where
  id : Int
  name : String
  color : String
  userId : Option Int
deriving DecidableEq, Repr

/-- A note-tag link, after `@shared/schema` (`note_tags` table). -/
structure NoteTag where
  id : Int
  noteId : Int
  tagId : Int
deriving DecidableEq, Repr

/-- A generic record for stating merge laws that hold for any entity kind:
an identifier, an optional `updatedAt` field (`none` models the field being
absent, as for folders/tags/links), and a payload distinguishing records. -/
structure MRec where
  id : Int
  upd : Option Int
  payload : Nat
deriving DecidableEq, Repr

/-- Lookup in the map of the source after its map-building loop: the map is populated by
`forEach`/`Map.set` keeping only items with positive ids, and a later `set`
on the same key overwrites an earlier one, so a lookup returns the *last*
item with that (positive) id. -/
def mapLookup {α : Type} (idOf : α → Int) (items : List α) (k : Int) : Option α :=
  (items.filter (fun x => decide (0 < idOf x) && decide (idOf x = k))).getLast?

/-- Membership test for the same map. -/
def mapHas {α : Type} (idOf : α → Int) (items : List α) (k : Int) : Bool :=
  (mapLookup idOf items k).isSome

/-- Treatment of one local item in the local loop of `mergeData` from
`client/src/lib/utils/supabase.ts` (lines 99–123): a local item with a
non-positive id is kept as-is, a local item with a positive id and no
remote counterpart is kept as-is, and when a remote counterpart exists,
if both records carry an `updatedAt` field the local item is kept exactly
when `new Date(local.updatedAt) > new Date(remote.updatedAt)` (so the
remote item is kept on a tie), while records without the field keep the
local item. `updOf` returns `some t` when the record has an `updatedAt`
field with value `t` and `none` when the field is absent (the source tests
whether the field is present in each item). -/
def mergeOne {α : Type} (idOf : α → Int) (updOf : α → Option Int)
    (remoteItems : List α) (localItem : α) : α :=
  if 0 < idOf localItem then
    match mapLookup idOf remoteItems (idOf localItem) with
    | some remoteItem =>
      match updOf localItem, updOf remoteItem with
      | some lt, some rt => if rt < lt then localItem else remoteItem
      | _, _ => localItem
    | none => localItem
  else localItem

/-- Body of the merge: the local loop keeps `mergeOne` of every local item
(in order), and then every remote item with a positive id that is absent
from the local map is appended. An empty remote list returns the local list
unchanged (the early return at the top of the source). -/
def mergeData {α : Type} (idOf : α → Int) (updOf : α → Option Int)
    (localItems remoteItems : List α) : List α :=
  if remoteItems.isEmpty then localItems
  else
    localItems.map (mergeOne idOf updOf remoteItems) ++
      remoteItems.filter (fun r =>
        decide (0 < idOf r) && !(mapHas idOf localItems (idOf r)))

/-- The four-kind dataset moved by `exportAllData`/`importAllData` and the
sync passes. -/
structure Dataset where
  notes : List Note
  folders : List Folder
  tags : List Tag
  noteTags : List NoteTag
deriving DecidableEq, Repr

/-- Reads the `updatedAt` field of a note: notes always carry the field. -/
def noteUpd (n : Note) : Option Int := some n.updatedAt

/-- The merge phase of a full sync pass (`syncWithSupabase` lines 143–154,
`syncWithWebDAV` lines 196–207, with `dataType` undefined): each kind is merged
independently by `mergeData`; folders, tags and note-tag links have no
`updatedAt` field, so their `updOf` is constantly `none`. -/
def syncMergePhase (localData remoteData : Dataset) : Dataset :=
  { notes := mergeData Note.id noteUpd localData.notes remoteData.notes
    noteTags := mergeData NoteTag.id (fun _ => none) localData.noteTags remoteData.noteTags
    folders := mergeData Folder.id (fun _ => none) localData.folders remoteData.folders
    tags := mergeData Tag.id (fun _ => none) localData.tags remoteData.tags }

/-- IndexedDB `put` on a store whose key path is `id`: if a record with the
same key exists it is replaced in place, otherwise the record is added. -/
def putRecord {α : Type} (idOf : α → Int) (store : List α) (x : α) : List α :=
  if store.any (fun y => decide (idOf y = idOf x)) then
    store.map (fun y => if idOf y = idOf x then x else y)
  else store ++ [x]

/-- One kind of `importAllData` from `client/src/lib/utils/storage.ts`
(lines 401–458): the incoming records are `put` one by one; a kind whose
incoming list is empty is skipped (the source guards each kind with a
non-emptiness check), and the store is never cleared first. -/
def importKind {α : Type} (idOf : α → Int) (curr incoming : List α) : List α :=
  if incoming.isEmpty then curr
  else incoming.foldl (putRecord idOf) curr

/-- Full `importAllData` over the four entity kinds. -/
def importAllData (curr merged : Dataset) : Dataset :=
  { folders := importKind Folder.id curr.folders merged.folders
    tags := importKind Tag.id curr.tags merged.tags
    notes := importKind Note.id curr.notes merged.notes
    noteTags := importKind NoteTag.id curr.noteTags merged.noteTags }

/-- Where a sync pass can fail: while fetching the remote data (before the
merged result has been imported locally) or while uploading the merged data
back to the remote (after the local import). -/
inductive SyncFailure
  | download
  | upload
deriving DecidableEq, Repr

/-- The observable local-store effect of `syncWithWebDAV` in the WebDAV
module (and identically `syncWithSupabase` in `client/src/lib/utils/supabase.ts`):
the source exports local data, downloads remote data (a failure here throws
before anything local is written), merges per kind, calls `importAllData`
on the *local* store, and only then uploads the merged data to the remote
(a failure here throws after the local import has already happened).
Returns the local-store contents the caller observes and a success flag. -/
def syncWithWebDAV (localStore remoteStore : Dataset) (failAt : Option SyncFailure) :
    Dataset × Bool :=
  match failAt with
  | some SyncFailure.download => (localStore, false)
  | some SyncFailure.upload =>
      (importAllData localStore (syncMergePhase localStore remoteStore), false)
  | none =>
      (importAllData localStore (syncMergePhase localStore remoteStore), true)

/-- The three entity tables touched by folder deletion. -/
structure DbState where
  folders : List Folder
  notes : List Note
  noteTags : List NoteTag
deriving DecidableEq, Repr

/-- The folder deletion of `client/src/lib/db.ts` (`deleteFolder`, lines
262–272): every note whose `folderId` equals the deleted id is updated with
`folderId: null` (and, through `updateNote`, a refreshed `updatedAt` equal
to the current time `now`); then the folder record is deleted. Note-tag
links are untouched. -/
def db_deleteFolder (s : DbState) (fid : Int) (now : Int) : DbState :=
  { folders := s.folders.filter (fun f => decide (f.id ≠ fid))
    notes := s.notes.map (fun n =>
      if n.folderId = some fid then { n with folderId := none, updatedAt := now } else n)
    noteTags := s.noteTags }

/-- The folder deletion of `client/src/lib/utils/storage.ts` (`deleteFolder`,
lines 188–214): every note in the folder is *deleted*, together with its
note-tag links, and then the folder record is deleted. -/
def storage_deleteFolder (s : DbState) (fid : Int) : DbState :=
  { folders := s.folders.filter (fun f => decide (f.id ≠ fid))
    notes := s.notes.filter (fun n => decide (n.folderId ≠ some fid))
    noteTags := s.noteTags.filter (fun nt =>
      !(s.notes.any (fun n => decide (n.folderId = some fid) && decide (n.id = nt.noteId)))) }

/-- The three storage modes of `storage-context.tsx`; `localStore` stands
for the string literal naming the local mode in the source. -/
inductive StorageType
  | localStore
  | supabase
  | webdav
deriving DecidableEq, Repr

/-- WebDAV connection settings as stored by the context. -/
structure WebDAVConfig where
  url : String
  username : Option String
  password : Option String
deriving DecidableEq, Repr

/-- The two precondition errors `setStorageType` can throw. -/
inductive StorageError
  | authRequired
  | webdavNotConfigured
deriving DecidableEq, Repr

/-- The state read and written by `setStorageType`. -/
structure StorageState where
  storageType : StorageType
  isAuthenticated : Bool
  webdavConfig : Option WebDAVConfig
deriving DecidableEq, Repr

/-- The mode-change request of `client/src/context/storage-context.tsx`
(`setStorageType`, lines 44–65): the supabase branch throws when the caller
is not authenticated and the webdav branch throws when no WebDAV
configuration is stored; both throws happen before the mode is written, so
on error the state is returned unchanged. On success the requested mode is
stored. (`changeStorageType` in `use-storage.ts` performs the same checks
before delegating here.) -/
def setStorageType (s : StorageState) (t : StorageType) : StorageState × Option StorageError :=
  if t = StorageType.supabase && !s.isAuthenticated then
    (s, some StorageError.authRequired)
  else if t = StorageType.webdav && s.webdavConfig.isNone then
    (s, some StorageError.webdavNotConfigured)
  else
    ({ s with storageType := t }, none)

/-- The counter seeding of `loadIdCounters` in `client/src/lib/db.ts`
(lines 122–132) for one kind, applied to the ids of the persisted records:
the constructor initialises the counter to 1, and when the store is
non-empty the counter is set to `Math.max(...ids) + 1`. -/
def loadIdCounter : List Int → Int
  | [] => 1
  | x :: xs => xs.foldl max x + 1

/-- The allocator step `getNextId` of `client/src/lib/db.ts` (lines
143–145): returns the current counter and increments it. -/
def getNextId (c : Int) : Int × Int := (c, c + 1)

/-- The identifier produced by the `(k+1)`-th call to `getNextId` starting
from counter `c`. -/
def nthIssued (c : Int) : Nat → Int
  | 0 => (getNextId c).1
  | k + 1 => nthIssued (getNextId c).2 k

/-- A record as seen by the generic `addItem` of `client/src/lib/db.ts`:
`id = none` models a record whose `id` field is `undefined`. -/
structure StoreItem where
  id : Option Int
  payload : Nat
deriving DecidableEq, Repr

/-- The insert-or-replace of `client/src/lib/db.ts` (`addItem`, lines
167–183): a fresh id is taken from the allocator only when the id is
`undefined` or exactly `0`; any other id — including a negative one — is
kept, and the record is stored by `put`. Returns the persisted record and
the new counter. -/
def addItem (counter : Int) (item : StoreItem) : StoreItem × Int :=
  if item.id = none ∨ item.id = some 0 then
    ({ item with id := some counter }, counter + 1)
  else (item, counter)

/-- The link creation of `client/src/lib/db.ts` (`addTagToNote`, lines
396–418): if a link with the same `(noteId, tagId)` pair already exists the
store is left unchanged; otherwise a new link is built with `id: 0`,
`addItem` assigns it the allocator id `counter`, and the record is `put`
into the store. Returns the new store and counter. -/
def addTagToNote (state : List NoteTag) (counter : Int) (noteId tagId : Int) :
    List NoteTag × Int :=
  match state.find? (fun nt => decide (nt.noteId = noteId) && decide (nt.tagId = tagId)) with
  | some _ => (state, counter)
  | none =>
      (putRecord NoteTag.id state { id := counter, noteId := noteId, tagId := tagId },
       counter + 1)

/-! ## Helper lemmas about the embedded operations -/

/-- A successful map lookup returns a member of the list whose id is
positive and equal to the key. -/
theorem mapLookup_some {α : Type} {idOf : α → Int} {items : List α} {k : Int} {z : α}
    (h : mapLookup idOf items k = some z) : z ∈ items ∧ 0 < idOf z ∧ idOf z = k := by
  unfold mapLookup at h
  have hz : z ∈ items.filter (fun x => decide (0 < idOf x) && decide (idOf x = k)) :=
    List.mem_of_mem_getLast? h
  have hm := List.mem_filter.mp hz
  simpa using hm

/-- A member with a positive id makes the map contain its key. -/
theorem mapHas_true_of_mem {α : Type} {idOf : α → Int} {items : List α} {x : α}
    (hx : x ∈ items) (hpos : 0 < idOf x) : mapHas idOf items (idOf x) = true := by
  unfold mapHas mapLookup
  exact List.getLast?_isSome.mpr
    (List.ne_nil_of_mem (List.mem_filter.mpr ⟨hx, by simp [hpos]⟩))

/-- When no member has the given positive key, the map lacks it. -/
theorem mapHas_false {α : Type} {idOf : α → Int} {items : List α} {k : Int}
    (h : ∀ y ∈ items, ¬(0 < idOf y ∧ idOf y = k)) : mapHas idOf items k = false := by
  unfold mapHas mapLookup
  have hnil : items.filter (fun x => decide (0 < idOf x) && decide (idOf x = k)) = [] := by
    refine List.filter_eq_nil_iff.mpr ?_
    intro a ha
    simpa using h a ha
  simp [hnil]

/-- The last element of a non-empty list all of whose elements equal `x`
is `x`. -/
theorem getLast?_of_all_eq {α : Type} {m : List α} {x : α}
    (hne : m ≠ []) (hall : ∀ y ∈ m, y = x) : m.getLast? = some x := by
  induction m with
  | nil => exact absurd rfl hne
  | cons a as ih =>
    cases as with
    | nil =>
      have := hall a (by simp)
      simp [this]
    | cons b bs =>
      rw [List.getLast?_cons_cons]
      exact ih (by simp) (fun y hy => hall y (List.mem_cons_of_mem a hy))

/-- The result of `mergeOne` is either the local item itself or the record
found in the remote map at its key. -/
theorem mergeOne_eq_or {α : Type} (idOf : α → Int) (updOf : α → Option Int)
    (remoteItems : List α) (y : α) :
    mergeOne idOf updOf remoteItems y = y ∨
    ∃ z, mapLookup idOf remoteItems (idOf y) = some z ∧
      mergeOne idOf updOf remoteItems y = z := by
  unfold mergeOne
  by_cases hp : 0 < idOf y
  · simp only [hp, if_true]
    cases hlk : mapLookup idOf remoteItems (idOf y) with
    | none => left; rfl
    | some z =>
      cases hu : updOf y with
      | none => left; rfl
      | some ty =>
        cases hu2 : updOf z with
        | none => left; simp [hu2]
        | some tz =>
          by_cases hlt : tz < ty
          · left; simp [hu2, hlt]
          · right; exact ⟨z, rfl, by simp [hu2, hlt]⟩
  · left; simp [hp]

/-- When every record of `l` that shares a positive id with `a` is `a`
itself, `mergeOne` against `l` keeps `a` unchanged. -/
theorem mergeOne_self {α : Type} (idOf : α → Int) (updOf : α → Option Int)
    (l : List α) (a : α)
    (h : ∀ b ∈ l, 0 < idOf a → idOf a = idOf b → a = b) :
    mergeOne idOf updOf l a = a := by
  unfold mergeOne
  by_cases hp : 0 < idOf a
  · simp only [hp, if_true]
    cases hlk : mapLookup idOf l (idOf a) with
    | none => rfl
    | some z =>
      obtain ⟨hz, _, hzk⟩ := mapLookup_some hlk
      obtain rfl : a = z := h z hz hp hzk.symm
      cases hu : updOf a with
      | none => rfl
      | some t => simp [hu]
  · simp [hp]

/-- The seed of a fold by `max` bounds the fold from below. -/
theorem le_foldl_max (xs : List Int) (a : Int) : a ≤ xs.foldl max a := by
  induction xs generalizing a with
  | nil => exact le_refl a
  | cons y ys ih => exact le_trans (le_max_left a y) (ih (max a y))

/-- Every member of a list bounds its fold by `max` from below. -/
theorem mem_le_foldl_max (xs : List Int) (x : Int) : ∀ a, x ∈ xs → x ≤ xs.foldl max a := by
  induction xs with
  | nil => intro a h; cases h
  | cons y ys ih =>
    intro a h
    rcases List.mem_cons.mp h with rfl | h2
    · exact le_trans (le_max_right a x) (le_foldl_max ys (max a x))
    · exact ih (max a y) h2

/-- Iterating `getNextId` from counter `c` issues `c + k` as the
`(k+1)`-th identifier. -/
theorem nthIssued_eq (c : Int) (k : Nat) : nthIssued c k = c + k := by
  induction k generalizing c with
  | zero => simp [nthIssued, getNextId]
  | succ k ih =>
    rw [nthIssued, getNextId, ih]
    push_cast
    ring

/-! ## Concrete fixtures -/

/-- The local copy of note 7 in the last-writer-wins scenario. -/
def c1_local : Note :=
  { id := 7, title := "local", content := "", isPinned := false, folderId := none,
    userId := none, createdAt := 0, updatedAt := 100 }

/-- The remote copy of note 7: same id, same `updatedAt`, different title. -/
def c1_remote : Note :=
  { id := 7, title := "remote", content := "", isPinned := false, folderId := none,
    userId := none, createdAt := 0, updatedAt := 100 }

/-! ## Claim C1 — last-writer-wins and the tie case -/

/-- Claim C1, counterexample: with equal `updatedAt` values on both copies
of note 7, the merged record is the remote copy, not the local one — the
source pushes `localDate > remoteDate ? localItem : remoteItem`, which on a
tie selects the remote item, contradicting the claimed local-wins-on-tie
rule. -/
theorem c1_counterexample :
    mergeData Note.id noteUpd [c1_local] [c1_remote] = [c1_remote] ∧
    mergeData Note.id noteUpd [c1_local] [c1_remote] ≠ [c1_local] := by
  constructor
  · decide
  · decide

/-- Claim C1, amended: for two copies of the same positively identified
note, the merge keeps whichever copy has the strictly newer `updatedAt`,
and when the timestamps are equal it keeps the *remote* record (the local
record survives exactly when its timestamp is strictly greater). -/
theorem c1_lww_amended (a b : Note) (hpos : 0 < a.id) (hid : b.id = a.id) :
    mergeData Note.id noteUpd [a] [b] = [if b.updatedAt < a.updatedAt then a else b] := by
  have hb : 0 < b.id := by rw [hid]; exact hpos
  have h1 : mapLookup Note.id [b] a.id = some b := by
    unfold mapLookup
    rw [← hid]
    simp [hb]
  have h2 : mapHas Note.id [a] b.id = true := by
    rw [hid]
    exact mapHas_true_of_mem (List.mem_singleton_self a) hpos
  unfold mergeData mergeOne
  simp [h1, h2, hpos, noteUpd]

/-- Claim C1, witness for the amended theorem at the concrete copies of
note 7. -/
theorem c1_lww_amended_witness :
    mergeData Note.id noteUpd [c1_local] [c1_remote]
      = [if c1_remote.updatedAt < c1_local.updatedAt then c1_local else c1_remote] :=
  c1_lww_amended c1_local c1_remote (by decide) (by decide)

/-! ## Claim C2 — dangling note-tag links after a sync merge -/

/-- Every local item survives the merge when the entity kind has no
`updatedAt` field: with a non-positive id it is kept as-is, with a
positive id it is kept by the no-timestamp rule whether or not a remote
counterpart exists. -/
theorem mem_mergeData_local_noUpd {α : Type} (idOf : α → Int)
    (localItems remoteItems : List α) (x : α) (h : x ∈ localItems) :
    x ∈ mergeData idOf (fun _ => none) localItems remoteItems := by
  unfold mergeData
  by_cases he : remoteItems.isEmpty
  · simpa [he] using h
  · simp only [he, if_false, Bool.false_eq_true]
    apply List.mem_append_left
    apply List.mem_map.mpr
    refine ⟨x, h, ?_⟩
    unfold mergeOne
    by_cases hp : 0 < idOf x
    · simp only [hp, if_true]
      cases mapLookup idOf remoteItems (idOf x) <;> rfl
    · simp [hp]

/-- The dangling note-tag link used against claim C2. -/
def c2_link : NoteTag := { id := 1, noteId := 5, tagId := 9 }

/-- The local dataset for the C2 scenario: a single link to tag 9, no tag
records at all. -/
def c2_local : Dataset := { notes := [], folders := [], tags := [], noteTags := [c2_link] }

/-- The remote dataset for the C2 scenario: empty. -/
def c2_remote : Dataset := { notes := [], folders := [], tags := [], noteTags := [] }

/-- Claim C2, counterexample: after the full sync merge the merged Tag set
is empty — in particular it does not contain tag 9 — yet the NoteTag link
referencing tag 9 is still present in the merged NoteTag set: no
dangling-link filtering happens anywhere in the sync pass. -/
theorem c2_counterexample :
    (syncMergePhase c2_local c2_remote).tags = [] ∧
    (syncMergePhase c2_local c2_remote).noteTags = [c2_link] := by
  constructor
  · decide
  · decide

/-- Claim C2, amended: the sync pass only applies the per-kind merge to
NoteTag records and never filters them against the merged Note or Tag
sets; in particular every link present locally survives into the merged
NoteTag set unconditionally, whatever the note and tag tables contain. -/
theorem c2_no_dangling_filter (l r : Dataset) (nt : NoteTag) (h : nt ∈ l.noteTags) :
    nt ∈ (syncMergePhase l r).noteTags :=
  mem_mergeData_local_noUpd NoteTag.id l.noteTags r.noteTags nt h

/-- Claim C2, witness for the amended theorem: the concrete dangling link
survives the concrete sync merge. -/
theorem c2_no_dangling_filter_witness : c2_link ∈ (syncMergePhase c2_local c2_remote).noteTags :=
  c2_no_dangling_filter c2_local c2_remote c2_link (by decide)

/-! ## Claim C3 — atomicity of a failed sync pass -/

/-- The local dataset before the C3 sync attempt: empty. -/
def c3_local : Dataset := { notes := [], folders := [], tags := [], noteTags := [] }

/-- The remote dataset for the C3 sync attempt: one note. -/
def c3_remote : Dataset :=
  { notes := [{ id := 1, title := "remote note", content := "", isPinned := false,
                folderId := none, userId := none, createdAt := 0, updatedAt := 10 }],
    folders := [], tags := [], noteTags := [] }

/-- Claim C3, counterexample: a sync pass that fails while uploading the
merged data reports failure, yet the local store no longer equals its
pre-call contents — the source calls `importAllData` on the local store
*before* the remote upload, so the remote note has already been written
locally when the upload throws. -/
theorem c3_counterexample :
    (syncWithWebDAV c3_local c3_remote (some SyncFailure.upload)).2 = false ∧
    (syncWithWebDAV c3_local c3_remote (some SyncFailure.upload)).1 ≠ c3_local := by
  constructor
  · rfl
  · decide

/-- Claim C3, amended: a sync pass that fails while fetching the remote
data leaves the local store untouched, but a pass that fails during the
remote upload leaves the local store exactly as a fully successful pass
would — the merged dataset has already been imported locally. -/
theorem c3_failed_sync_amended (l r : Dataset) :
    (syncWithWebDAV l r (some SyncFailure.download)).1 = l ∧
    (syncWithWebDAV l r (some SyncFailure.upload)).1 = (syncWithWebDAV l r none).1 := by
  exact ⟨rfl, rfl⟩

/-! ## Claim C4 — folder deletion and member notes -/

/-- Folder 3 of the cascade scenario. -/
def c4_folder : Folder := { id := 3, name := "folder", userId := none }

/-- Note 10, a member of folder 3. -/
def c4_note10 : Note :=
  { id := 10, title := "ten", content := "", isPinned := false, folderId := some 3,
    userId := none, createdAt := 0, updatedAt := 1 }

/-- Note 11, a member of folder 3. -/
def c4_note11 : Note :=
  { id := 11, title := "eleven", content := "", isPinned := false, folderId := some 3,
    userId := none, createdAt := 0, updatedAt := 1 }

/-- The store state before deleting folder 3. -/
def c4_state : DbState :=
  { folders := [c4_folder], notes := [c4_note10, c4_note11], noteTags := [] }

/-- Claim C4, counterexample: the `deleteFolder` of
`client/src/lib/utils/storage.ts` deletes the member notes outright —
after deleting folder 3, notes 10 and 11 are gone from the note table,
contradicting the claim that no note is ever deleted by a folder
deletion. -/
theorem c4_counterexample :
    c4_note10 ∈ c4_state.notes ∧ c4_note11 ∈ c4_state.notes ∧
    (storage_deleteFolder c4_state 3).notes = [] := by
  refine ⟨by decide, by decide, by decide⟩

/-- Claim C4, amended: the `deleteFolder` of `client/src/lib/db.ts`
behaves as claimed — it deletes no note, reassigns every member note to no
folder (also refreshing its `updatedAt` to the deletion time through
`updateNote`), keeps non-member notes unchanged, and removes the folder —
while the `deleteFolder` of `client/src/lib/utils/storage.ts` instead
deletes every member note outright. -/
theorem c4_deleteFolder_amended (s : DbState) (fid now : Int) :
    (db_deleteFolder s fid now).notes.length = s.notes.length ∧
    (∀ n ∈ s.notes, n.folderId = some fid →
      ({ n with folderId := none, updatedAt := now } : Note) ∈ (db_deleteFolder s fid now).notes) ∧
    (∀ n ∈ s.notes, n.folderId ≠ some fid → n ∈ (db_deleteFolder s fid now).notes) ∧
    (∀ f ∈ (db_deleteFolder s fid now).folders, f.id ≠ fid) ∧
    (∀ n : Note, n.folderId = some fid → n ∉ (storage_deleteFolder s fid).notes) := by
  refine ⟨?_, ?_, ?_, ?_, ?_⟩
  · simp [db_deleteFolder]
  · intro n hn h
    exact List.mem_map.mpr ⟨n, hn, by simp [h]⟩
  · intro n hn h
    exact List.mem_map.mpr ⟨n, hn, by simp [h]⟩
  · intro f hf
    have := (List.mem_filter.mp hf).2
    simpa using this
  · intro n h hmem
    have := (List.mem_filter.mp hmem).2
    simp [h] at this

/-- Claim C4, witness for the amended theorem: deleting folder 3 at time
50 keeps note 10 with an empty folder reference. -/
theorem c4_deleteFolder_amended_witness :
    ({ c4_note10 with folderId := none, updatedAt := 50 } : Note)
      ∈ (db_deleteFolder c4_state 3 50).notes :=
  (c4_deleteFolder_amended c4_state 3 50).2.1 c4_note10 (by decide) (by decide)

/-! ## Claim C5 — unauthenticated request for the cloud mode -/

/-- Claim C5: requesting the supabase (remote-api) mode while not
authenticated returns the authentication-required error with the state
unchanged — the throw in the source precedes every side effect — so the
reported mode afterwards equals the mode before the request. -/
theorem c5_authRequired (s : StorageState) (h : s.isAuthenticated = false) :
    setStorageType s StorageType.supabase = (s, some StorageError.authRequired) ∧
    (setStorageType s StorageType.supabase).1.storageType = s.storageType := by
  have heq : setStorageType s StorageType.supabase = (s, some StorageError.authRequired) := by
    unfold setStorageType
    simp [h]
  exact ⟨heq, by rw [heq]⟩

/-- An unauthenticated state currently in local mode. -/
def c5_state : StorageState :=
  { storageType := StorageType.localStore, isAuthenticated := false, webdavConfig := none }

/-- Claim C5, witness at the concrete unauthenticated state. -/
theorem c5_authRequired_witness :
    setStorageType c5_state StorageType.supabase = (c5_state, some StorageError.authRequired) ∧
    (setStorageType c5_state StorageType.supabase).1.storageType = c5_state.storageType :=
  c5_authRequired c5_state rfl

/-! ## Claim C6 — identifier allocator re-initialisation -/

/-- Claim C6: after re-initialisation over the persisted ids `l`, the
counter is `max l + 1` for a non-empty store and `1` for an empty one;
every identifier issued afterwards is strictly greater than every
persisted identifier, and successive calls issue strictly increasing
values. -/
theorem c6_allocator (l : List Int) :
    loadIdCounter [] = 1 ∧
    (∀ x xs, loadIdCounter (x :: xs) = xs.foldl max x + 1) ∧
    (∀ x ∈ l, ∀ k : Nat, x < nthIssued (loadIdCounter l) k) ∧
    (∀ j k : Nat, j < k → nthIssued (loadIdCounter l) j < nthIssued (loadIdCounter l) k) := by
  refine ⟨rfl, fun x xs => rfl, ?_, ?_⟩
  · intro x hx k
    rw [nthIssued_eq]
    cases l with
    | nil => cases hx
    | cons y ys =>
      have hle : x ≤ ys.foldl max y := by
        rcases List.mem_cons.mp hx with rfl | h2
        · exact le_foldl_max ys x
        · exact mem_le_foldl_max ys x y h2
      have hk : (0 : Int) ≤ (k : Int) := Int.natCast_nonneg k
      have hc : loadIdCounter (y :: ys) = ys.foldl max y + 1 := rfl
      rw [hc]
      omega
  · intro j k hjk
    rw [nthIssued_eq, nthIssued_eq]
    have : (j : Int) < (k : Int) := by exact_mod_cast hjk
    omega

/-- Claim C6, witness: over the persisted ids `[4, 9, 2]` the first issued
identifier exceeds the persisted id 9 and later calls keep increasing. -/
theorem c6_allocator_witness :
    9 < nthIssued (loadIdCounter [4, 9, 2]) 0 ∧
    nthIssued (loadIdCounter [4, 9, 2]) 0 < nthIssued (loadIdCounter [4, 9, 2]) 2 :=
  ⟨(c6_allocator [4, 9, 2]).2.2.1 9 (by decide) 0,
   (c6_allocator [4, 9, 2]).2.2.2 0 2 (by decide)⟩

/-! ## Claim C7 — id assignment in the put operation -/

/-- Claim C7, counterexample: a record carrying the negative placeholder
id `-1` is persisted by `addItem` with that id unchanged — the source only
reassigns ids that are `undefined` or exactly `0` — so a persisted record
can have a non-positive identifier. -/
theorem c7_counterexample :
    (addItem 5 { id := some (-1), payload := 0 }).1.id = some (-1) ∧
    ¬ (0 : Int) < -1 := by
  refine ⟨by decide, by decide⟩

/-- Claim C7, amended: `addItem` takes a fresh identifier from the
allocator only when the incoming id is absent (`undefined`) or exactly
zero; any other id — positive or negative — is persisted unchanged and the
counter does not advance. -/
theorem c7_addItem_amended (c : Int) (item : StoreItem) :
    ((item.id = none ∨ item.id = some 0) →
      (addItem c item).1.id = some c ∧ (addItem c item).2 = c + 1) ∧
    (∀ i : Int, item.id = some i → i ≠ 0 →
      (addItem c item).1 = item ∧ (addItem c item).2 = c) := by
  constructor
  · intro h
    unfold addItem
    rw [if_pos h]
    exact ⟨rfl, rfl⟩
  · intro i hi hne
    have hnot : ¬(item.id = none ∨ item.id = some 0) := by
      rw [hi]
      simp
      exact hne
    unfold addItem
    rw [if_neg hnot]
    exact ⟨rfl, rfl⟩

/-- Claim C7, witness: the amended theorem applied at counter 5, to a
fresh record with no id and to a record with the placeholder id `-1`. -/
theorem c7_addItem_amended_witness :
    (addItem 5 { id := none, payload := 0 }).1.id = some 5 ∧
    (addItem 5 { id := some (-1), payload := 1 }).1 = { id := some (-1), payload := 1 } :=
  ⟨((c7_addItem_amended 5 { id := none, payload := 0 }).1 (Or.inl rfl)).1,
   ((c7_addItem_amended 5 { id := some (-1), payload := 1 }).2 (-1) rfl (by decide)).1⟩

/-! ## Claim C8 — idempotence of the merge -/

/-- First record of the idempotence counterexample: positive id 1. -/
def c8_recA : MRec := { id := 1, upd := some 5, payload := 0 }

/-- Second record of the idempotence counterexample: the same id 1 and the
same timestamp but a different payload. -/
def c8_recB : MRec := { id := 1, upd := some 5, payload := 1 }

/-- Claim C8, counterexample: merging the two-element list `[A, B]` with
itself, where `A` and `B` are distinct records sharing the positive id 1,
yields `[B, B]` — `A` disappears from the output (the set of records
shrinks) and `B` is duplicated, refuting idempotence for arbitrary lists:
the remote map keeps only the last record per id, and the tie rule then
replaces every local record of that id with it. -/
theorem c8_counterexample :
    mergeData MRec.id MRec.upd [c8_recA, c8_recB] [c8_recA, c8_recB] = [c8_recB, c8_recB] ∧
    c8_recA ≠ c8_recB ∧
    c8_recA ∉ mergeData MRec.id MRec.upd [c8_recA, c8_recB] [c8_recA, c8_recB] := by
  refine ⟨by decide, by decide, by decide⟩

/-- Claim C8, amended: the merge is idempotent on every list in which a
positive identifier determines the record (no two distinct records share a
positive id — which holds for any list read out of the keyed store):
merging such a list with itself returns it unchanged. -/
theorem c8_merge_idempotent {α : Type} (idOf : α → Int) (updOf : α → Option Int)
    (l : List α) (h : ∀ a ∈ l, ∀ b ∈ l, 0 < idOf a → idOf a = idOf b → a = b) :
    mergeData idOf updOf l l = l := by
  unfold mergeData
  by_cases he : l.isEmpty
  · simp [he]
  · simp only [he, if_false, Bool.false_eq_true]
    have h1 : l.map (mergeOne idOf updOf l) = l := by
      have hcong : ∀ a ∈ l, mergeOne idOf updOf l a = id a :=
        fun a ha => mergeOne_self idOf updOf l a (h a ha)
      rw [List.map_congr_left hcong, List.map_id]
    have h2 : l.filter (fun r => decide (0 < idOf r) && !(mapHas idOf l (idOf r))) = [] := by
      refine List.filter_eq_nil_iff.mpr ?_
      intro a ha
      by_cases hp : 0 < idOf a
      · simp [mapHas_true_of_mem ha hp]
      · simp [hp]
    rw [h1, h2, List.append_nil]

/-- Claim C8, witness: the amended theorem applied to the singleton list. -/
theorem c8_merge_idempotent_witness :
    mergeData MRec.id MRec.upd [c8_recA] [c8_recA] = [c8_recA] :=
  c8_merge_idempotent MRec.id MRec.upd [c8_recA] (by decide)

/-! ## Claim C10 — non-positive remote identifiers never reach the output -/

/-- Claim C10: every record of the merged output with a non-positive
identifier is a member of the local list (remote records with non-positive
ids are discarded — they are neither merge keys nor appended), while a
remote record with a positive identifier matching no positive local
identifier is appended to the output. -/
theorem c10_remote_placeholders {α : Type} (idOf : α → Int) (updOf : α → Option Int)
    (localItems remoteItems : List α) :
    (∀ x ∈ mergeData idOf updOf localItems remoteItems, idOf x ≤ 0 → x ∈ localItems) ∧
    (∀ x ∈ remoteItems, 0 < idOf x →
      (∀ y ∈ localItems, ¬(0 < idOf y ∧ idOf y = idOf x)) →
      x ∈ mergeData idOf updOf localItems remoteItems) := by
  constructor
  · intro x hx hle
    unfold mergeData at hx
    by_cases he : remoteItems.isEmpty
    · simpa [he] using hx
    · simp only [he, if_false, Bool.false_eq_true] at hx
      rcases List.mem_append.mp hx with hk | hr
      · rcases List.mem_map.mp hk with ⟨y, hy, hfy⟩
        rcases mergeOne_eq_or idOf updOf remoteItems y with h1 | ⟨z, hz, h2⟩
        · rw [h1] at hfy
          exact hfy ▸ hy
        · rw [h2] at hfy
          obtain ⟨_, hzpos, _⟩ := mapLookup_some hz
          rw [hfy] at hzpos
          omega
      · exfalso
        have hcond := (List.mem_filter.mp hr).2
        rw [Bool.and_eq_true] at hcond
        have : 0 < idOf x := by simpa using hcond.1
        omega
  · intro x hx hpos hnone
    unfold mergeData
    by_cases he : remoteItems.isEmpty
    · rw [List.isEmpty_iff] at he
      subst he
      cases hx
    · simp only [he, if_false, Bool.false_eq_true]
      apply List.mem_append_right
      refine List.mem_filter.mpr ⟨hx, ?_⟩
      have hfalse : mapHas idOf localItems (idOf x) = false := mapHas_false hnone
      simp [hpos, hfalse]

/-- A local record with a negative placeholder id. -/
def c10_localRec : MRec := { id := -1, upd := none, payload := 0 }

/-- A remote-only record with a positive id. -/
def c10_remoteRec : MRec := { id := 2, upd := none, payload := 1 }

/-- Claim C10, witness: in the concrete merge the placeholder output
record is the local one, and the positive remote-only record is appended. -/
theorem c10_remote_placeholders_witness :
    c10_localRec ∈ [c10_localRec] ∧
    c10_remoteRec ∈ mergeData MRec.id MRec.upd [c10_localRec] [c10_remoteRec] :=
  ⟨(c10_remote_placeholders MRec.id MRec.upd [c10_localRec] [c10_remoteRec]).1
      c10_localRec (by decide) (by decide),
   (c10_remote_placeholders MRec.id MRec.upd [c10_localRec] [c10_remoteRec]).2
      c10_remoteRec (by decide) (by decide) (by decide)⟩

/-! ## Claim C9 — uniqueness of (noteId, tagId) pairs -/

/-- Two links are pair-distinct when they differ in note reference or tag
reference; the NoteTag invariant is pairwise pair-distinctness. -/
def pairDistinct (a b : NoteTag) : Prop := a.noteId ≠ b.noteId ∨ a.tagId ≠ b.tagId

/-- A link whose pair differs from `(n, t)` is pair-distinct from any link
carrying exactly the pair `(n, t)`, in both orders. -/
theorem pairDistinct_mk {c n t : Int} {x : NoteTag}
    (h : ¬(x.noteId = n ∧ x.tagId = t)) :
    pairDistinct x { id := c, noteId := n, tagId := t } ∧
    pairDistinct { id := c, noteId := n, tagId := t } x := by
  unfold pairDistinct
  simp only []
  constructor <;> omega

/-- Claim C9: starting from a NoteTag table with pairwise distinct keys
(the store key path makes ids unique) and no duplicate (noteId, tagId)
pairs, `addTagToNote` preserves the no-duplicate-pair invariant for every
requested pair: when the pair already exists the table is unchanged,
otherwise the freshly keyed link is added and its pair was absent. -/
theorem c9_addTagToNote (state : List NoteTag) (counter noteId tagId : Int)
    (hids : state.Pairwise (fun a b => a.id ≠ b.id))
    (hpairs : state.Pairwise pairDistinct) :
    ((addTagToNote state counter noteId tagId).1).Pairwise pairDistinct := by
  unfold addTagToNote
  cases hf : state.find? (fun nt => decide (nt.noteId = noteId) && decide (nt.tagId = tagId)) with
  | some w => exact hpairs
  | none =>
    have hnone : ∀ x ∈ state, ¬(x.noteId = noteId ∧ x.tagId = tagId) := by
      intro x hx
      have hfx := List.find?_eq_none.mp hf x hx
      simpa using hfx
    show (putRecord NoteTag.id state
      { id := counter, noteId := noteId, tagId := tagId }).Pairwise pairDistinct
    unfold putRecord
    by_cases hany : state.any (fun y =>
      decide (y.id = NoteTag.id { id := counter, noteId := noteId, tagId := tagId }))
    · rw [if_pos hany, List.pairwise_map]
      refine (hids.and hpairs).imp_of_mem ?_
      intro a b ha hb hab
      obtain ⟨hid, hpd⟩ := hab
      by_cases ha2 : a.id = NoteTag.id { id := counter, noteId := noteId, tagId := tagId }
      · by_cases hb2 : b.id = NoteTag.id { id := counter, noteId := noteId, tagId := tagId }
        · exact absurd (ha2.trans hb2.symm) hid
        · rw [if_pos ha2, if_neg hb2]
          exact (pairDistinct_mk (hnone b hb)).2
      · by_cases hb2 : b.id = NoteTag.id { id := counter, noteId := noteId, tagId := tagId }
        · rw [if_neg ha2, if_pos hb2]
          exact (pairDistinct_mk (hnone a ha)).1
        · rw [if_neg ha2, if_neg hb2]
          exact hpd
    · rw [if_neg hany, List.pairwise_append]
      refine ⟨hpairs, List.pairwise_singleton pairDistinct _, ?_⟩
      intro a ha b hb
      rw [List.mem_singleton] at hb
      subst hb
      exact (pairDistinct_mk (hnone a ha)).1

/-- Claim C9, witness: adding the pair (6, 9) to a table already holding
the single link (5, 9) keeps the pairs pairwise distinct. -/
theorem c9_addTagToNote_witness :
    ((addTagToNote [{ id := 1, noteId := 5, tagId := 9 }] 2 6 9).1).Pairwise pairDistinct :=
  c9_addTagToNote [{ id := 1, noteId := 5, tagId := 9 }] 2 6 9
    (by simp) (by simp)
